import Mathlib

/-!
Shallow embedding of the water-supply record-keeping application
(customer accounts, supply-session ledger entries, payment application,
charge calculation, reporting aggregation and CSV export), translated from
`src/lib/api/customers.ts`, `src/lib/api/entries.ts`, `src/lib/api/reports.ts`,
the dashboard aggregation module and `src/services/crop-charge.ts`.

Monetary amounts and durations are JavaScript numbers in the source; they are
modelled as rationals (`ℚ`), timestamps as integers (epoch milliseconds), and
Firestore document ids as naturals.  Each API function that runs a Firestore
transaction is modelled as a pure function from the store state (`DB`) to
either a typed error or the committed post-state, mirroring the all-or-nothing
commit semantics of `runTransaction`/`writeBatch`.
-/

namespace Studio

/-- Typed errors thrown by the API layer (`throw new Error(...)` sites). -/
inductive ApiError where
  | invalidAmount
  | customerNotFound
  | invalidRange
  | invalidData
  | unknownRate
  | noDataToExport
deriving Repr, DecidableEq

/-- Customer document (`Customer` interface in `customers.ts`). -/
structure Customer where
  name : String
  mobile : String
  village : String
  totalPaid : ℚ
  pendingAmount : ℚ
deriving Repr, DecidableEq

/-- Water-supply entry document (`WaterSupplyEntry` interface in `entries.ts`).
`entryTimestamp` is the start timestamp, `endDate` the end timestamp, both in
epoch milliseconds. -/
structure WaterSupplyEntry where
  customerId : Nat
  customerName : String
  entryTimestamp : Int
  endDate : Int
  startTime : String
  endTime : String
  durationHours : ℚ
  cropType : String
  amount : ℚ
  isPaid : Bool
deriving Repr, DecidableEq

/-- The Firestore state: the `customers` and `waterSupplyEntries` collections
as association lists keyed by document id, plus a fresh-id counter standing in
for Firestore's auto-generated document ids. -/
structure DB where
  customers : List (Nat × Customer)
  entries : List (Nat × WaterSupplyEntry)
  nextId : Nat
deriving Repr, DecidableEq

/-- Point lookup of a document by id (`transaction.get` / `getDoc`). -/
def lookupById {α : Type} (l : List (Nat × α)) (i : Nat) : Option α :=
  (l.find? (fun p => p.1 == i)).map (·.2)

/-- Overwrite the document with the given id (`transaction.update`). -/
def setById {α : Type} (l : List (Nat × α)) (i : Nat) (a : α) : List (Nat × α) :=
  l.map (fun p => if p.1 == i then (p.1, a) else p)

/-- Insert one entry into a list that is sorted by ascending start timestamp,
keeping equal keys in their original relative order. -/
def insertAsc (x : Nat × WaterSupplyEntry) :
    List (Nat × WaterSupplyEntry) → List (Nat × WaterSupplyEntry)
  | [] => [x]
  | y :: ys =>
    if x.2.entryTimestamp < y.2.entryTimestamp then x :: y :: ys
    else y :: insertAsc x ys

/-- Stable sort by ascending start timestamp
(`orderBy('entryTimestamp', 'asc')`). -/
def sortByStartAsc : List (Nat × WaterSupplyEntry) → List (Nat × WaterSupplyEntry)
  | [] => []
  | x :: xs => insertAsc x (sortByStartAsc xs)

/-- The unpaid-entries query of `recordPayment`:
`where customerId == cid`, `where isPaid == false`,
`orderBy entryTimestamp asc`. -/
def unpaidEntriesOldestFirst (db : DB) (cid : Nat) : List (Nat × WaterSupplyEntry) :=
  sortByStartAsc (db.entries.filter (fun p => p.2.customerId == cid && !p.2.isPaid))

/-- The oldest-first payment-application loop of `recordPayment` (step 5 of the
transaction): walk the unpaid entries with `remaining = paymentAmount`; stop if
`remaining ≤ 0`; skip an entry whose amount is `≤ 0`; if `remaining ≥ amount`
mark the entry paid and subtract; otherwise stop immediately.  Returns the ids
of the entries staged as paid. -/
def paymentWalk (remaining : ℚ) : List (Nat × WaterSupplyEntry) → List Nat
  | [] => []
  | (i, e) :: rest =>
    if remaining ≤ 0 then []
    else if e.amount ≤ 0 then paymentWalk remaining rest
    else if e.amount ≤ remaining then i :: paymentWalk (remaining - e.amount) rest
    else []

/-- Stage `isPaid := true` on every entry whose id is in `ids`. -/
def markPaid (entries : List (Nat × WaterSupplyEntry)) (ids : List Nat) :
    List (Nat × WaterSupplyEntry) :=
  entries.map (fun p => if ids.contains p.1 then (p.1, { p.2 with isPaid := true }) else p)

/-- `recordPayment(customerId, paymentAmount)` from `customers.ts`: rejects a
non-positive payment, fails when the customer is absent, and otherwise commits
`totalPaid + paymentAmount`, `max 0 (pendingAmount - paymentAmount)`, and the
entry-paid flags produced by the oldest-first walk, atomically. -/
def recordPayment (db : DB) (customerId : Nat) (paymentAmount : ℚ) :
    Except ApiError DB :=
  if paymentAmount ≤ 0 then .error .invalidAmount
  else
    match lookupById db.customers customerId with
    | none => .error .customerNotFound
    | some c =>
      let newTotalPaid := c.totalPaid + paymentAmount
      let newPendingAmount := max 0 (c.pendingAmount - paymentAmount)
      let paidIds := paymentWalk paymentAmount (unpaidEntriesOldestFirst db customerId)
      .ok { db with
        customers := setById db.customers customerId
          { c with totalPaid := newTotalPaid, pendingAmount := newPendingAmount },
        entries := markPaid db.entries paidIds }

/-- `addCustomer` from `customers.ts`: creates a customer document with
`totalPaid = 0` and `pendingAmount = 0` (missing name/mobile/village is a
validation failure caught before any store access). -/
def addCustomer (db : DB) (name mobile village : String) :
    Except ApiError (DB × Nat) :=
  if name = "" || mobile = "" || village = "" then .error .invalidData
  else
    let newId := db.nextId
    .ok ({ db with
            customers := db.customers ++
              [(newId, { name := name, mobile := mobile, village := village,
                         totalPaid := 0, pendingAmount := 0 })],
            nextId := newId + 1 }, newId)

/-- Input of `addWaterSupplyEntry` (`NewEntryData` in `entries.ts`). -/
structure NewEntryData where
  customerId : Nat
  startDateTime : Int
  endDateTime : Int
  startTime : String
  endTime : String
  cropType : String
  amount : ℚ
  durationHours : ℚ
  isPaid : Bool
deriving Repr, DecidableEq

/-- `addWaterSupplyEntry(entryData)` from `entries.ts`: rejects
`endDateTime ≤ startDateTime` before any store access, fails when the customer
is absent, and otherwise atomically commits the customer's new pending amount
(`pendingAmount + amount` when the entry is unpaid, unchanged when it is
already paid) together with the new entry document, returning the new entry's
id. -/
def addWaterSupplyEntry (db : DB) (entryData : NewEntryData) :
    Except ApiError (DB × Nat) :=
  if entryData.endDateTime ≤ entryData.startDateTime then .error .invalidRange
  else
    match lookupById db.customers entryData.customerId with
    | none => .error .customerNotFound
    | some c =>
      let newPendingAmount :=
        if entryData.isPaid then c.pendingAmount else c.pendingAmount + entryData.amount
      let newId := db.nextId
      let newEntry : WaterSupplyEntry :=
        { customerId := entryData.customerId
          customerName := c.name
          entryTimestamp := entryData.startDateTime
          endDate := entryData.endDateTime
          startTime := entryData.startTime
          endTime := entryData.endTime
          durationHours := entryData.durationHours
          cropType := entryData.cropType
          amount := entryData.amount
          isPaid := entryData.isPaid }
      .ok ({ customers := setById db.customers entryData.customerId
               { c with pendingAmount := newPendingAmount },
             entries := db.entries ++ [(newId, newEntry)],
             nextId := newId + 1 }, newId)

/-- The add-entry form submission (`onSubmit` in the new-entry page), the only
caller of `addWaterSupplyEntry` in the repository: it always builds the
`NewEntryData` payload with `isPaid: false`. -/
def newEntryFromForm (customerId : Nat) (startDateTime endDateTime : Int)
    (startTime endTime cropType : String) (amount durationHours : ℚ) :
    NewEntryData :=
  { customerId := customerId
    startDateTime := startDateTime
    endDateTime := endDateTime
    startTime := startTime
    endTime := endTime
    cropType := cropType
    amount := amount
    durationHours := durationHours
    isPaid := false }

/-- Partial update payload for `updateWaterSupplyEntry` (the fields the update
path actually handles: `amount` and `isPaid`; `none` = field absent). -/
structure EntryUpdateData where
  amount : Option ℚ
  isPaid : Option Bool
deriving Repr, DecidableEq

/-- Apply the staged `transaction.update(entryRef, finalUpdateData)` to an
entry document. -/
def applyEntryUpdate (e : WaterSupplyEntry) (u : EntryUpdateData) : WaterSupplyEntry :=
  { e with amount := u.amount.getD e.amount, isPaid := u.isPaid.getD e.isPaid }

/-- `updateWaterSupplyEntry(entryId, updateData, oldEntryData)` from
`entries.ts`: computes the pending-amount adjustment from the old and new
(amount, isPaid) pair by the four-case rule, stages the entry update, and
stages a customer update to `max 0 (pendingAmount + adjustment)` only when the
adjustment is nonzero.  The returned boolean records whether a customer write
was staged. -/
def updateWaterSupplyEntry (db : DB) (entryId : Nat) (updateData : EntryUpdateData)
    (oldEntryData : WaterSupplyEntry) : Except ApiError (DB × Bool) :=
  if updateData.amount.isNone && updateData.isPaid.isNone then .error .invalidData
  else
    match lookupById db.customers oldEntryData.customerId with
    | none => .error .customerNotFound
    | some c =>
      let oldAmount := oldEntryData.amount
      let newAmount := updateData.amount.getD oldAmount
      let oldIsPaid := oldEntryData.isPaid
      let newIsPaid := updateData.isPaid.getD oldIsPaid
      let pendingAmountAdjustment : ℚ :=
        if oldIsPaid && newIsPaid then 0
        else if !oldIsPaid && !newIsPaid then newAmount - oldAmount
        else if oldIsPaid && !newIsPaid then newAmount
        else -oldAmount
      let entries' := db.entries.map
        (fun p => if p.1 == entryId then (p.1, applyEntryUpdate p.2 updateData) else p)
      if pendingAmountAdjustment ≠ 0 then
        .ok ({ db with
                entries := entries',
                customers := setById db.customers oldEntryData.customerId
                  { c with pendingAmount := max 0 (c.pendingAmount + pendingAmountAdjustment) } },
              true)
      else
        .ok ({ db with entries := entries' }, false)

/-- `deleteWaterSupplyEntry(entryToDelete)` from `entries.ts`: re-reads the
entry inside the transaction; if it no longer exists the transaction returns
early (no-op success).  Otherwise the entry is deleted using the fresh
`isPaid`/`amount` from the store; if it was unpaid the owning customer (looked
up through the *passed* `customerId`) gets `max 0 (pendingAmount - amount)`,
and a missing customer is logged and skipped without failing. -/
def deleteWaterSupplyEntry (db : DB) (entryToDelete : Nat × WaterSupplyEntry) :
    Except ApiError DB :=
  match lookupById db.entries entryToDelete.1 with
  | none => .ok db
  | some fresh =>
    let isPaid := fresh.isPaid
    let entryAmount := fresh.amount
    let db1 := { db with entries := db.entries.filter (fun p => p.1 != entryToDelete.1) }
    if isPaid then .ok db1
    else
      match lookupById db.customers entryToDelete.2.customerId with
      | none => .ok db1
      | some c =>
        .ok { db1 with
                customers := setById db1.customers entryToDelete.2.customerId
                  { c with pendingAmount := max 0 (c.pendingAmount - entryAmount) } }

/-- `deleteCustomer(customerId)` from `customers.ts`: if the customer is
absent the function returns without writing; otherwise a single batch deletes
the customer document and every entry whose `customerId` matches. -/
def deleteCustomer (db : DB) (customerId : Nat) : Except ApiError DB :=
  match lookupById db.customers customerId with
  | none => .ok db
  | some _ =>
    .ok { db with
            customers := db.customers.filter (fun p => p.1 != customerId),
            entries := db.entries.filter (fun p => p.2.customerId != customerId) }

/-- Insert one entry into a list sorted by descending start timestamp. -/
def insertDesc (x : Nat × WaterSupplyEntry) :
    List (Nat × WaterSupplyEntry) → List (Nat × WaterSupplyEntry)
  | [] => [x]
  | y :: ys =>
    if x.2.entryTimestamp > y.2.entryTimestamp then x :: y :: ys
    else y :: insertDesc x ys

/-- Stable sort by descending start timestamp
(`orderBy('entryTimestamp', 'desc')`). -/
def sortByStartDesc : List (Nat × WaterSupplyEntry) → List (Nat × WaterSupplyEntry)
  | [] => []
  | x :: xs => insertDesc x (sortByStartDesc xs)

/-- `getCustomerSupplyHistory(customerId)` from `customers.ts`:
`where customerId == cid`, `orderBy entryTimestamp desc` (in the model every
stored document is structurally complete, so the defensive validation filter
keeps everything). -/
def getCustomerSupplyHistory (db : DB) (customerId : Nat) :
    List (Nat × WaterSupplyEntry) :=
  sortByStartDesc (db.entries.filter (fun p => p.2.customerId == customerId))

/-- The configured crop rate table (`cropChargeRates` in
`services/crop-charge.ts`). -/
def cropChargeRates (cropType : String) : Option ℚ :=
  if cropType = "Rice" then some 200
  else if cropType = "Wheat" then some 150
  else if cropType = "Sugarcane" then some 180
  else if cropType = "Cotton" then some 160
  else if cropType = "Vegetables" then some 140
  else if cropType = "Other" then some 130
  else none

/-- `getCropCharge(cropType)` from `services/crop-charge.ts`:
`rate = cropChargeRates[cropType] ?? cropChargeRates["Other"]`, throwing only
when even the default is missing. -/
def getCropCharge (cropType : String) : Except ApiError ℚ :=
  match (cropChargeRates cropType).or (cropChargeRates "Other") with
  | some rate => .ok rate
  | none => .error .unknownRate

/-- `calculateCharge(startDateTime, endDateTime, cropType)` from `entries.ts`:
rejects `end ≤ start`, computes `durationHours = durationMs / 3600000`,
rejects a non-positive duration, looks up the hourly rate through
`getCropCharge`, and returns `Math.round(durationHours * rate)`.  JavaScript's
`Math.round` is `⌊x + 1/2⌋`, which is Mathlib's `round` on `ℚ`. -/
def calculateCharge (startDateTime endDateTime : Int) (cropType : String) :
    Except ApiError Int :=
  if endDateTime ≤ startDateTime then .error .invalidRange
  else
    let durationMs : ℚ := ((endDateTime - startDateTime : Int) : ℚ)
    let durationHours : ℚ := durationMs / 3600000
    if durationHours ≤ 0 then .error .invalidRange
    else
      match getCropCharge cropType with
      | .error e => .error e
      | .ok chargePerHour => .ok (round (durationHours * chargePerHour))

/-- One mutation of the reconciliation engine, for reasoning about arbitrary
operation sequences. -/
inductive Op where
  | addEntry (entryData : NewEntryData)
  | deleteEntry (entryToDelete : Nat × WaterSupplyEntry)
  | payment (customerId : Nat) (paymentAmount : ℚ)
  | updateEntry (entryId : Nat) (updateData : EntryUpdateData)
      (oldEntryData : WaterSupplyEntry)
deriving Repr

/-- Committed effect of one operation: a failed transaction leaves the store
untouched (all-or-nothing semantics), a successful one commits its writes. -/
def applyOp (db : DB) : Op → DB
  | .addEntry d =>
    match addWaterSupplyEntry db d with
    | .ok (db', _) => db'
    | .error _ => db
  | .deleteEntry e =>
    match deleteWaterSupplyEntry db e with
    | .ok db' => db'
    | .error _ => db
  | .payment cid p =>
    match recordPayment db cid p with
    | .ok db' => db'
    | .error _ => db
  | .updateEntry i u o =>
    match updateWaterSupplyEntry db i u o with
    | .ok (db', _) => db'
    | .error _ => db

/-- Run a sequence of operations left to right. -/
def runOps (db : DB) : List Op → DB
  | [] => db
  | op :: ops => runOps (applyOp db op) ops

/-- Every customer document in the store has a non-negative pending amount. -/
def PendingNonneg (db : DB) : Prop :=
  ∀ p ∈ db.customers, 0 ≤ p.2.pendingAmount

/-- An operation whose add-entry payload carries a non-negative amount (the
amount of every entry created through the UI comes from `calculateCharge`,
which rounds a positive product). -/
def OpAmountNonneg : Op → Prop
  | .addEntry d => 0 ≤ d.amount
  | _ => True

/-- A document of the aggregation fallback model: its start timestamp (used by
the date-range `where` clauses) and the value stored at the aggregated field —
`none` models a document where the field is missing or not a finite number. -/
structure AggDoc where
  entryTimestamp : Int
  fieldValue : Option ℚ
deriving Repr, DecidableEq

/-- The date-range filters of `aggregateSumForPeriod`: optional
`where entryTimestamp >= start` and `where entryTimestamp <= end` clauses
applied to the base collection query. -/
def filterPeriod (startTs endTs : Option Int) (docs : List AggDoc) : List AggDoc :=
  docs.filter (fun d =>
    (startTs.all (fun s => decide (s ≤ d.entryTimestamp))) &&
    (endTs.all (fun e => decide (d.entryTimestamp ≤ e))))

/-- Modelled from the spec: the Firestore server-side `sum` aggregation
primitive (`getAggregateFromServer` with `sum(fieldName)`) is external library
code not in the repository; per the spec it returns the sum of the numeric
values of the field over the matching documents, skipping documents where the
field is missing or non-numeric. -/
def serverAggregateSum (docs : List AggDoc) : ℚ :=
  (docs.filterMap (fun d => d.fieldValue)).sum

/-- One step of the manual fallback loop: add `doc.data()?.[fieldName]` to the
accumulator whenever it is a number and not `NaN`, otherwise leave the
accumulator unchanged. -/
def manualSumStep (totalSum : ℚ) (d : AggDoc) : ℚ :=
  match d.fieldValue with
  | some value => totalSum + value
  | none => totalSum

/-- The manual fallback loop of `aggregateSumForPeriod`: iterate the documents
of the same query left to right starting from `totalSum = 0`. -/
def manualFallbackSum (docs : List AggDoc) : ℚ :=
  docs.foldl manualSumStep 0

/-- `aggregateSumForPeriod(collection, field, startDate?, endDate?)` from the
dashboard module: build the filtered query, try the aggregation primitive, and
on primitive failure fall back to the manual per-document summation over the
same query. -/
def aggregateSumForPeriod (primitiveFails : Bool) (startTs endTs : Option Int)
    (docs : List AggDoc) : ℚ :=
  if primitiveFails then manualFallbackSum (filterPeriod startTs endTs docs)
  else serverAggregateSum (filterPeriod startTs endTs docs)

/-- Report filters (`ReportFilters` in `reports.ts`): `none` for `customerId`
models the `'all'` choice; the date bounds are the `startOfDay`/`endOfDay`
timestamps the code derives before querying. -/
structure ReportFilters where
  customerId : Option Nat
  startDate : Option Int
  endDate : Option Int
deriving Repr, DecidableEq

/-- `getFilteredEntries(filters)` from `reports.ts`: base query ordered by
start timestamp descending, with optional customer and date-range `where`
clauses on `entryTimestamp` (stored documents are structurally complete in the
model, so the defensive validation filter keeps everything). -/
def getFilteredEntries (db : DB) (filters : ReportFilters) :
    List (Nat × WaterSupplyEntry) :=
  sortByStartDesc (db.entries.filter (fun p =>
    (filters.customerId.all (fun cid => p.2.customerId == cid)) &&
    (filters.startDate.all (fun s => decide (s ≤ p.2.entryTimestamp))) &&
    (filters.endDate.all (fun e => decide (p.2.entryTimestamp ≤ e)))))

/-- The CSV header row of `exportEntries`. -/
def csvHeaders : List String :=
  ["Start Date", "End Date", "Customer", "Start Time", "End Time",
   "Duration (hrs)", "Crop Type", "Amount (INR)", "Status"]

/-- One CSV row of `exportEntries`.  The date rendering (`format(date,
'yyyy-MM-dd')`), the same-day test (`isSameDay`) and the `toFixed(2)` /
`toFixed(0)` numeric renderings are external library formatting, passed in as
parameters; the row structure, the `|| 'N/A'` fallbacks, the quote-escaping
and quoting of the customer name, and the `Paid`/`Pending` status column are
translated from the source. -/
def csvRow (fmtDate : Int → String) (sameDay : Int → Int → Bool)
    (fmtFixed2 fmtFixed0 : ℚ → String) (e : WaterSupplyEntry) : List String :=
  let startDateStr := fmtDate e.entryTimestamp
  let endDateStr :=
    if !sameDay e.entryTimestamp e.endDate then fmtDate e.endDate else startDateStr
  [startDateStr,
   endDateStr,
   "\"" ++ ((if e.customerName = "" then "N/A" else e.customerName).replace "\"" "\"\"") ++ "\"",
   (if e.startTime = "" then "N/A" else e.startTime),
   (if e.endTime = "" then "N/A" else e.endTime),
   fmtFixed2 e.durationHours,
   (if e.cropType = "" then "N/A" else e.cropType),
   fmtFixed0 e.amount,
   (if e.isPaid then "Paid" else "Pending")]

/-- JavaScript's `Array.prototype.join(sep)`: empty list gives the empty
string, a single element gives itself, otherwise elements separated by
`sep`. -/
def joinWith (sep : String) : List String → String
  | [] => ""
  | [x] => x
  | x :: xs => x ++ sep ++ joinWith sep xs

/-- `exportEntries(filters)` from `reports.ts`: fetch the filtered entries,
fail with `NoDataToExport` when the result set is empty, otherwise join the
header row and the data rows with commas and newlines and prefix the
byte-order mark U+FEFF.  The result is the text content of the returned
CSV blob. -/
def exportEntries (fmtDate : Int → String) (sameDay : Int → Int → Bool)
    (fmtFixed2 fmtFixed0 : ℚ → String) (db : DB) (filters : ReportFilters) :
    Except ApiError String :=
  let dataToExport := getFilteredEntries db filters
  if dataToExport.length = 0 then .error .noDataToExport
  else
    let rows := dataToExport.map
      (fun p => csvRow fmtDate sameDay fmtFixed2 fmtFixed0 p.2)
    let csvContent := joinWith "\n"
      (joinWith "," csvHeaders :: rows.map (joinWith ","))
    .ok ("\uFEFF" ++ csvContent)

/-! ## Helper lemmas about the store primitives -/

/-- Unfolding a point lookup over a cons cell whose key matches. -/
theorem lookupById_cons_self {α : Type} {k i : Nat} (hk : (k == i) = true)
    (v : α) (rest : List (Nat × α)) :
    lookupById ((k, v) :: rest) i = some v := by
  simp [lookupById, List.find?_cons, hk]

/-- Unfolding a point lookup over a cons cell whose key differs. -/
theorem lookupById_cons_ne {α : Type} {k i : Nat} (hk : (k == i) = false)
    (v : α) (rest : List (Nat × α)) :
    lookupById ((k, v) :: rest) i = lookupById rest i := by
  simp [lookupById, List.find?_cons, hk]

/-- Unfolding the overwrite over a cons cell whose key matches. -/
theorem setById_cons_self {α : Type} {k i : Nat} (hk : (k == i) = true)
    (v a : α) (rest : List (Nat × α)) :
    setById ((k, v) :: rest) i a = (k, a) :: setById rest i a := by
  show (if (k == i) = true then (k, a) else (k, v)) :: setById rest i a = _
  rw [if_pos hk]

/-- Unfolding the overwrite over a cons cell whose key differs. -/
theorem setById_cons_ne {α : Type} {k i : Nat} (hk : (k == i) = false)
    (v : α) (a : α) (rest : List (Nat × α)) :
    setById ((k, v) :: rest) i a = (k, v) :: setById rest i a := by
  show (if (k == i) = true then (k, a) else (k, v)) :: setById rest i a = _
  rw [if_neg (by simp [hk])]

/-- A successful point lookup returns a pair that is in the collection. -/
theorem lookupById_mem {α : Type} {l : List (Nat × α)} {i : Nat} {a : α} :
    lookupById l i = some a → (i, a) ∈ l := by
  induction l with
  | nil => intro h; simp [lookupById] at h
  | cons p rest ih =>
    obtain ⟨k, v⟩ := p
    cases hk : (k == i) with
    | true =>
      intro h
      rw [lookupById_cons_self hk] at h
      have hk2 : k = i := by simpa using hk
      have hv : v = a := Option.some.inj h
      subst hk2; subst hv
      exact List.mem_cons_self _ _
    | false =>
      intro h
      rw [lookupById_cons_ne hk] at h
      exact List.mem_cons_of_mem _ (ih h)

/-- Every pair of the overwritten collection either carries the new document
or was already present. -/
theorem of_mem_setById {α : Type} {l : List (Nat × α)} {i : Nat} {a : α}
    {q : Nat × α} (h : q ∈ setById l i a) : q.2 = a ∨ q ∈ l := by
  unfold setById at h
  rcases List.mem_map.mp h with ⟨p, hp, rfl⟩
  by_cases hpi : (p.1 == i) = true
  · left; simp [hpi]
  · right; simpa [hpi] using hp

/-- Looking up the overwritten id returns the new document exactly when the id
was present before. -/
theorem lookupById_setById_self {α : Type} (l : List (Nat × α)) (i : Nat) (a : α) :
    lookupById (setById l i a) i = (lookupById l i).map (fun _ => a) := by
  induction l with
  | nil => rfl
  | cons p rest ih =>
    obtain ⟨k, v⟩ := p
    cases hk : (k == i) with
    | true =>
      rw [setById_cons_self hk, lookupById_cons_self hk,
        lookupById_cons_self hk]
      rfl
    | false =>
      rw [setById_cons_ne hk, lookupById_cons_ne hk,
        lookupById_cons_ne hk, ih]

/-- Looking up any other id is unaffected by the overwrite. -/
theorem lookupById_setById_ne {α : Type} (l : List (Nat × α)) (i j : Nat) (a : α)
    (h : j ≠ i) : lookupById (setById l i a) j = lookupById l j := by
  induction l with
  | nil => rfl
  | cons p rest ih =>
    obtain ⟨k, v⟩ := p
    cases hk : (k == i) with
    | true =>
      have hk2 : k = i := by simpa using hk
      have hkj : (k == j) = false := by
        simp only [beq_eq_false_iff_ne]
        omega
      rw [setById_cons_self hk, lookupById_cons_ne hkj,
        lookupById_cons_ne hkj, ih]
    | false =>
      cases hkj : (k == j) with
      | true =>
        rw [setById_cons_ne hk, lookupById_cons_self hkj,
          lookupById_cons_self hkj]
      | false =>
        rw [setById_cons_ne hk, lookupById_cons_ne hkj,
          lookupById_cons_ne hkj, ih]

/-- Unfolding the staged entry-paid flags over a cons cell whose id is
marked. -/
theorem markPaid_cons_mem {k : Nat} {ids : List Nat}
    (hc : ids.contains k = true) (v : WaterSupplyEntry)
    (rest : List (Nat × WaterSupplyEntry)) :
    markPaid ((k, v) :: rest) ids =
      (k, { v with isPaid := true }) :: markPaid rest ids := by
  show (if ids.contains k = true then (k, { v with isPaid := true }) else (k, v)) ::
      markPaid rest ids = _
  rw [if_pos hc]

/-- Unfolding the staged entry-paid flags over a cons cell whose id is not
marked. -/
theorem markPaid_cons_not_mem {k : Nat} {ids : List Nat}
    (hc : ids.contains k = false) (v : WaterSupplyEntry)
    (rest : List (Nat × WaterSupplyEntry)) :
    markPaid ((k, v) :: rest) ids = (k, v) :: markPaid rest ids := by
  show (if ids.contains k = true then (k, { v with isPaid := true }) else (k, v)) ::
      markPaid rest ids = _
  rw [if_neg (by simp_all)]

/-- Effect of the staged entry-paid flags on a point lookup. -/
theorem lookupById_markPaid (l : List (Nat × WaterSupplyEntry)) (ids : List Nat)
    (i : Nat) :
    lookupById (markPaid l ids) i =
      (lookupById l i).map
        (fun e => if ids.contains i then { e with isPaid := true } else e) := by
  induction l with
  | nil => rfl
  | cons p rest ih =>
    obtain ⟨k, v⟩ := p
    cases hk : (k == i) with
    | true =>
      have hk2 : k = i := by simpa using hk
      subst hk2
      cases hc : ids.contains k with
      | true =>
        rw [markPaid_cons_mem hc, lookupById_cons_self hk,
          lookupById_cons_self hk]
        simp [hc]
      | false =>
        rw [markPaid_cons_not_mem hc, lookupById_cons_self hk,
          lookupById_cons_self hk]
        simp [hc]
    | false =>
      cases hc : ids.contains k with
      | true =>
        rw [markPaid_cons_mem hc, lookupById_cons_ne hk,
          lookupById_cons_ne hk, ih]
      | false =>
        rw [markPaid_cons_not_mem hc, lookupById_cons_ne hk,
          lookupById_cons_ne hk, ih]

/-- Appending a document under a fresh id: looking up the fresh id finds it. -/
theorem lookupById_append_fresh {α : Type} {l : List (Nat × α)} {n : Nat} (a : α)
    (h : ∀ p ∈ l, p.1 ≠ n) : lookupById (l ++ [(n, a)]) n = some a := by
  induction l with
  | nil => simp [lookupById, List.find?_cons]
  | cons p rest ih =>
    have hp : p.1 ≠ n := h p (by simp)
    have hpn : (p.1 == n) = false := by simpa using hp
    simpa [lookupById, List.find?_cons, hpn] using
      ih (fun q hq => h q (by simp [hq]))

/-- Appending a document under a fresh id: every other lookup is unchanged. -/
theorem lookupById_append_other {α : Type} (l : List (Nat × α)) (n i : Nat) (a : α)
    (h : i ≠ n) : lookupById (l ++ [(n, a)]) i = lookupById l i := by
  induction l with
  | nil =>
    have hni : (n == i) = false := by
      simp only [beq_eq_false_iff_ne]
      omega
    simp [lookupById, List.find?_cons, hni]
  | cons p rest ih =>
    by_cases hpi : (p.1 == i) = true
    · simp [lookupById, List.find?_cons, hpi]
    · simpa [lookupById, List.find?_cons, hpi] using ih

/-! ## Claim theorems -/

/-- **C4.** For every AddEntry input with `end ≤ start`, the operation fails
with `InvalidRange` before any store access: no entry document is created and
the customer's `pendingAmount` is unchanged — the committed state equals the
initial state. -/
theorem addEntry_invalid_range_rejected (db : DB) (entryData : NewEntryData)
    (h : entryData.endDateTime ≤ entryData.startDateTime) :
    addWaterSupplyEntry db entryData = .error .invalidRange ∧
    applyOp db (.addEntry entryData) = db := by
  refine ⟨by simp [addWaterSupplyEntry, h], ?_⟩
  simp [applyOp, addWaterSupplyEntry, h]

/-- Witness for C4 at a concrete input: an entry whose end equals its start is
rejected and the store (one customer, no entries) is untouched. -/
theorem addEntry_invalid_range_rejected_witness :
    addWaterSupplyEntry
        ⟨[(1, ⟨"A", "9", "V", 0, 0⟩)], [], 2⟩
        ⟨1, 5000, 5000, "06:00", "06:00", "Rice", 100, 0, false⟩ =
      .error .invalidRange ∧
    applyOp ⟨[(1, ⟨"A", "9", "V", 0, 0⟩)], [], 2⟩
        (.addEntry ⟨1, 5000, 5000, "06:00", "06:00", "Rice", 100, 0, false⟩) =
      ⟨[(1, ⟨"A", "9", "V", 0, 0⟩)], [], 2⟩ :=
  addEntry_invalid_range_rejected _ _ (by norm_num)

/-- **C7.** The charge calculator, for every `start < end` and every crop
type, computes the duration in hours from the start/end difference, looks up
the hourly rate with a fallback to the configured default rate (the `"Other"`
rate, 130) for unrecognized crop types, and returns
`round(durationHours × rate)`; it is a pure function (the model is a Lean
function, side-effect free by construction).  In particular a 2.5-hour session
(9 000 000 ms) for crop `"Rice"` at rate 200/hr yields amount 500. -/
theorem calculateCharge_rounds_duration_times_rate :
    (∀ (startDateTime endDateTime : Int) (cropType : String),
        startDateTime < endDateTime →
        calculateCharge startDateTime endDateTime cropType =
          .ok (round (((endDateTime - startDateTime : Int) : ℚ) / 3600000 *
            ((cropChargeRates cropType).getD 130)))) ∧
    (∀ cropType : String, cropChargeRates cropType = none →
        getCropCharge cropType = .ok 130) ∧
    calculateCharge 0 9000000 "Rice" = .ok 500 := by
  have hrate : ∀ cropType : String,
      getCropCharge cropType = .ok ((cropChargeRates cropType).getD 130) := by
    intro cropType
    unfold getCropCharge
    cases h : cropChargeRates cropType with
    | none => simp [h, cropChargeRates]
    | some r => simp [h]
  refine ⟨?_, ?_, ?_⟩
  · intro s e crop hlt
    have h1 : ¬ (e ≤ s) := not_le.mpr hlt
    have hd : (0:ℚ) < ((e - s : Int) : ℚ) / 3600000 := by
      have h2 : (0:Int) < e - s := by omega
      have h3 : (0:ℚ) < ((e - s : Int) : ℚ) := by exact_mod_cast h2
      positivity
    simp [calculateCharge, h1, hlt, not_le.mpr hd, hrate]
  · intro crop h
    rw [hrate crop, h]; rfl
  · norm_num [calculateCharge, getCropCharge, cropChargeRates, round_eq]

/-- Witness for C7 at concrete inputs: the general formula applied to the
Rice session, and the default-rate fallback applied to an unrecognized crop
type. -/
theorem calculateCharge_rounds_duration_times_rate_witness :
    calculateCharge 0 9000000 "Rice" =
      .ok (round (((9000000 - 0 : Int) : ℚ) / 3600000 *
        ((cropChargeRates "Rice").getD 130))) ∧
    getCropCharge "Banana" = .ok 130 :=
  ⟨calculateCharge_rounds_duration_times_rate.1 0 9000000 "Rice" (by norm_num),
   calculateCharge_rounds_duration_times_rate.2.1 "Banana" (by simp [cropChargeRates])⟩

/-- **C8.** For every date-range filter and every document collection, the
manual per-document fallback summation of `aggregateSumForPeriod` returns the
same result as the (spec-modelled) aggregation primitive over the same
filtered document set, so a primitive failure causes no caller-visible
behavior change. -/
theorem aggregate_manual_fallback_same_result :
    ∀ (startTs endTs : Option Int) (docs : List AggDoc),
      aggregateSumForPeriod true startTs endTs docs =
      aggregateSumForPeriod false startTs endTs docs := by
  have key : ∀ (l : List AggDoc) (acc : ℚ),
      List.foldl manualSumStep acc l =
        acc + (l.filterMap (fun d => d.fieldValue)).sum := by
    intro l
    induction l with
    | nil => intro acc; simp
    | cons d rest ih =>
      intro acc
      cases h : d.fieldValue with
      | none => simp [List.foldl_cons, manualSumStep, h, ih]
      | some v => simp [List.foldl_cons, manualSumStep, h, ih, add_assoc]
  intro startTs endTs docs
  simp [aggregateSumForPeriod, manualFallbackSum, serverAggregateSum, key]

/-- Concrete customer for the RecordPayment scenario of C1: pending 800. -/
def c1Customer : Customer :=
  { name := "Asha", mobile := "9000000001", village := "Rampur",
    totalPaid := 0, pendingAmount := 800 }

/-- Oldest unpaid entry (amount 300) of the C1 scenario. -/
def c1Entry300 : WaterSupplyEntry :=
  { customerId := 1, customerName := "Asha", entryTimestamp := 1000, endDate := 6400000,
    startTime := "06:00", endTime := "07:30", durationHours := 3/2, cropType := "Rice",
    amount := 300, isPaid := false }

/-- Newer unpaid entry (amount 500) of the C1 scenario. -/
def c1Entry500 : WaterSupplyEntry :=
  { c1Entry300 with entryTimestamp := 90000000, endDate := 99000000, amount := 500 }

/-- Store state of the C1 scenario: one customer with pending 800 and its two
unpaid entries, 300 (older) and 500 (newer). -/
def c1DB : DB :=
  { customers := [(1, c1Customer)],
    entries := [(10, c1Entry300), (11, c1Entry500)],
    nextId := 20 }

/-- **C1.** `recordPayment` requires `paymentAmount > 0` (failing with
`InvalidAmount` otherwise); for every customer that exists it atomically sets
`totalPaid` to `totalPaid + paymentAmount` and `pendingAmount` to
`max 0 (pendingAmount − paymentAmount)` and flips exactly the entry-paid flags
chosen by the oldest-first walk; the walk skips entries with amount ≤ 0, marks
an entry and decrements `remaining` whenever `remaining ≥ amount`, and stops
at the first entry with `remaining < amount`.  For the concrete customer with
unpaid entries of 300 then 500 and a payment of 400, the 300 entry is marked
paid, the 500 entry stays unpaid, and `pendingAmount` drops by 400 (800 to
400). -/
theorem recordPayment_applies_payment_oldest_first :
    (∀ (db : DB) (customerId : Nat) (paymentAmount : ℚ), paymentAmount ≤ 0 →
        recordPayment db customerId paymentAmount = .error .invalidAmount) ∧
    (∀ (db : DB) (customerId : Nat) (paymentAmount : ℚ) (c : Customer),
        0 < paymentAmount →
        lookupById db.customers customerId = some c →
        ∃ db', recordPayment db customerId paymentAmount = .ok db' ∧
          lookupById db'.customers customerId =
            some { c with totalPaid := c.totalPaid + paymentAmount,
                          pendingAmount := max 0 (c.pendingAmount - paymentAmount) } ∧
          (∀ i : Nat, lookupById db'.entries i = (lookupById db.entries i).map
            (fun e =>
              if (paymentWalk paymentAmount
                    (unpaidEntriesOldestFirst db customerId)).contains i
              then { e with isPaid := true } else e))) ∧
    (∀ (remaining : ℚ) (i : Nat) (e : WaterSupplyEntry)
        (rest : List (Nat × WaterSupplyEntry)),
        0 < remaining → e.amount ≤ 0 →
        paymentWalk remaining ((i, e) :: rest) = paymentWalk remaining rest) ∧
    (∀ (remaining : ℚ) (i : Nat) (e : WaterSupplyEntry)
        (rest : List (Nat × WaterSupplyEntry)),
        0 < e.amount → e.amount ≤ remaining →
        paymentWalk remaining ((i, e) :: rest) =
          i :: paymentWalk (remaining - e.amount) rest) ∧
    (∀ (remaining : ℚ) (i : Nat) (e : WaterSupplyEntry)
        (rest : List (Nat × WaterSupplyEntry)),
        0 < remaining → remaining < e.amount →
        paymentWalk remaining ((i, e) :: rest) = []) ∧
    recordPayment c1DB 1 400 = .ok
      { customers := [(1, { c1Customer with totalPaid := 400, pendingAmount := 400 })],
        entries := [(10, { c1Entry300 with isPaid := true }), (11, c1Entry500)],
        nextId := 20 } := by
  refine ⟨?_, ?_, ?_, ?_, ?_, ?_⟩
  · intro db cid p hp
    simp [recordPayment, hp]
  · intro db cid p c hp hc
    have hrp : recordPayment db cid p = .ok
        { db with
            customers := setById db.customers cid
              { c with totalPaid := c.totalPaid + p,
                       pendingAmount := max 0 (c.pendingAmount - p) },
            entries := markPaid db.entries
              (paymentWalk p (unpaidEntriesOldestFirst db cid)) } := by
      simp [recordPayment, not_le.mpr hp, hc]
    refine ⟨_, hrp, ?_, ?_⟩
    · rw [lookupById_setById_self, hc]
      rfl
    · intro i
      exact lookupById_markPaid db.entries _ i
  · intro r i e rest hr ha
    simp [paymentWalk, not_le.mpr hr, ha]
  · intro r i e rest ha har
    have hr : 0 < r := lt_of_lt_of_le ha har
    simp [paymentWalk, not_le.mpr hr, not_le.mpr ha, har]
  · intro r i e rest hr hra
    have ha : ¬ (e.amount ≤ 0) := by
      intro hcon
      exact absurd (lt_trans hr hra) (not_lt.mpr hcon)
    simp [paymentWalk, not_le.mpr hr, ha, not_le.mpr hra]
  · simp [recordPayment, c1DB, lookupById, setById, unpaidEntriesOldestFirst,
      sortByStartAsc, insertAsc, paymentWalk, markPaid, c1Customer, c1Entry300,
      c1Entry500]
    norm_num

/-- Witness for C1 at concrete inputs: the non-positive payment rejection at
amount 0, and the general balance/entry postcondition applied to the
two-entry scenario store with payment 400. -/
theorem recordPayment_applies_payment_oldest_first_witness :
    recordPayment c1DB 1 0 = .error .invalidAmount ∧
    (∃ db', recordPayment c1DB 1 400 = .ok db' ∧
      lookupById db'.customers 1 =
        some { c1Customer with
                 totalPaid := c1Customer.totalPaid + 400,
                 pendingAmount := max 0 (c1Customer.pendingAmount - 400) } ∧
      (∀ i : Nat, lookupById db'.entries i = (lookupById c1DB.entries i).map
        (fun e =>
          if (paymentWalk 400 (unpaidEntriesOldestFirst c1DB 1)).contains i
          then { e with isPaid := true } else e))) :=
  ⟨recordPayment_applies_payment_oldest_first.1 c1DB 1 0 (by norm_num),
   recordPayment_applies_payment_oldest_first.2.1 c1DB 1 400 c1Customer
     (by norm_num) rfl⟩

/-- Filtering out an id from a keyed collection makes its lookup fail. -/
theorem lookupById_filter_self_none {α : Type} (l : List (Nat × α)) (i : Nat) :
    lookupById (l.filter (fun p => p.1 != i)) i = none := by
  unfold lookupById
  rw [List.find?_eq_none.mpr]
  · rfl
  · intro p hp
    have hf := List.of_mem_filter hp
    simp only [bne_iff_ne, ne_eq] at hf
    simp only [beq_iff_eq]
    exact hf

/-- **C6.** `deleteCustomer(customerId)` removes the customer record and every
entry whose `customerId` references it in one atomic batch: afterwards the
customer lookup fails, `getCustomerSupplyHistory` for that id returns the
empty set, and exactly the documents not referencing the customer survive.  If
the customer is absent, the operation succeeds as a no-op. -/
theorem deleteCustomer_cascades :
    (∀ (db : DB) (customerId : Nat),
        lookupById db.customers customerId = none →
        deleteCustomer db customerId = .ok db) ∧
    (∀ (db : DB) (customerId : Nat) (c : Customer),
        lookupById db.customers customerId = some c →
        ∃ db', deleteCustomer db customerId = .ok db' ∧
          lookupById db'.customers customerId = none ∧
          getCustomerSupplyHistory db' customerId = [] ∧
          (∀ p : Nat × WaterSupplyEntry,
            p ∈ db'.entries ↔ p ∈ db.entries ∧ p.2.customerId ≠ customerId) ∧
          (∀ q : Nat × Customer,
            q ∈ db'.customers ↔ q ∈ db.customers ∧ q.1 ≠ customerId)) := by
  constructor
  · intro db cid h
    simp [deleteCustomer, h]
  · intro db cid c hc
    have hdel : deleteCustomer db cid = .ok
        { customers := db.customers.filter (fun p => p.1 != cid),
          entries := db.entries.filter (fun p => p.2.customerId != cid),
          nextId := db.nextId } := by
      simp [deleteCustomer, hc]
    refine ⟨_, hdel, ?_, ?_, ?_, ?_⟩
    · exact lookupById_filter_self_none db.customers cid
    · unfold getCustomerSupplyHistory
      have hnil :
          (db.entries.filter (fun p => p.2.customerId != cid)).filter
            (fun p => p.2.customerId == cid) = [] := by
        rw [List.filter_filter]
        apply List.filter_eq_nil_iff.mpr
        intro p hp
        simp
      show sortByStartDesc ((db.entries.filter (fun p => p.2.customerId != cid)).filter
        (fun p => p.2.customerId == cid)) = []
      rw [hnil]
      rfl
    · intro p
      simp [List.mem_filter]
    · intro q
      simp [List.mem_filter]

/-- Witness for C6: cascading delete of the scenario customer removes the
customer and both of its entries, and its history afterwards is empty. -/
theorem deleteCustomer_cascades_witness :
    ∃ db', deleteCustomer c1DB 1 = .ok db' ∧
      lookupById db'.customers 1 = none ∧
      getCustomerSupplyHistory db' 1 = [] ∧
      (∀ p : Nat × WaterSupplyEntry,
        p ∈ db'.entries ↔ p ∈ c1DB.entries ∧ p.2.customerId ≠ 1) ∧
      (∀ q : Nat × Customer,
        q ∈ db'.customers ↔ q ∈ c1DB.customers ∧ q.1 ≠ 1) :=
  deleteCustomer_cascades.2 c1DB 1 c1Customer rfl

/-- **C5.** `deleteWaterSupplyEntry` is idempotent and clamped: a missing
entry makes the call a no-op success; an existing unpaid entry is removed and
its amount is subtracted from the owning customer's `pendingAmount` clamped at
0; a paid entry's deletion leaves every customer untouched; a missing owning
customer still lets the entry be deleted and the call succeed; and re-running
a successful delete is a no-op. -/
theorem deleteEntry_idempotent_clamped :
    (∀ (db : DB) (entryToDelete : Nat × WaterSupplyEntry),
        lookupById db.entries entryToDelete.1 = none →
        deleteWaterSupplyEntry db entryToDelete = .ok db) ∧
    (∀ (db : DB) (entryToDelete : Nat × WaterSupplyEntry)
        (fresh : WaterSupplyEntry) (c : Customer),
        lookupById db.entries entryToDelete.1 = some fresh →
        fresh.isPaid = false →
        lookupById db.customers entryToDelete.2.customerId = some c →
        ∃ db', deleteWaterSupplyEntry db entryToDelete = .ok db' ∧
          lookupById db'.entries entryToDelete.1 = none ∧
          lookupById db'.customers entryToDelete.2.customerId =
            some { c with pendingAmount := max 0 (c.pendingAmount - fresh.amount) }) ∧
    (∀ (db : DB) (entryToDelete : Nat × WaterSupplyEntry)
        (fresh : WaterSupplyEntry),
        lookupById db.entries entryToDelete.1 = some fresh →
        fresh.isPaid = true →
        ∃ db', deleteWaterSupplyEntry db entryToDelete = .ok db' ∧
          lookupById db'.entries entryToDelete.1 = none ∧
          db'.customers = db.customers) ∧
    (∀ (db : DB) (entryToDelete : Nat × WaterSupplyEntry)
        (fresh : WaterSupplyEntry),
        lookupById db.entries entryToDelete.1 = some fresh →
        fresh.isPaid = false →
        lookupById db.customers entryToDelete.2.customerId = none →
        ∃ db', deleteWaterSupplyEntry db entryToDelete = .ok db' ∧
          lookupById db'.entries entryToDelete.1 = none ∧
          db'.customers = db.customers) ∧
    (∀ (db db2 : DB) (entryToDelete : Nat × WaterSupplyEntry),
        deleteWaterSupplyEntry db entryToDelete = .ok db2 →
        deleteWaterSupplyEntry db2 entryToDelete = .ok db2) := by
  refine ⟨?_, ?_, ?_, ?_, ?_⟩
  · intro db e he
    simp [deleteWaterSupplyEntry, he]
  · intro db e fresh c he hp hc
    have hdel : deleteWaterSupplyEntry db e = .ok
        { customers := setById db.customers e.2.customerId
            { c with pendingAmount := max 0 (c.pendingAmount - fresh.amount) },
          entries := db.entries.filter (fun p => p.1 != e.1),
          nextId := db.nextId } := by
      simp [deleteWaterSupplyEntry, he, hp, hc]
    refine ⟨_, hdel, ?_, ?_⟩
    · exact lookupById_filter_self_none db.entries e.1
    · rw [lookupById_setById_self, hc]
      rfl
  · intro db e fresh he hp
    have hdel : deleteWaterSupplyEntry db e = .ok
        { db with entries := db.entries.filter (fun p => p.1 != e.1) } := by
      simp [deleteWaterSupplyEntry, he, hp]
    exact ⟨_, hdel, lookupById_filter_self_none db.entries e.1, rfl⟩
  · intro db e fresh he hp hc
    have hdel : deleteWaterSupplyEntry db e = .ok
        { db with entries := db.entries.filter (fun p => p.1 != e.1) } := by
      simp [deleteWaterSupplyEntry, he, hp, hc]
    exact ⟨_, hdel, lookupById_filter_self_none db.entries e.1, rfl⟩
  · intro db db2 e h
    cases he : lookupById db.entries e.1 with
    | none =>
      simp [deleteWaterSupplyEntry, he] at h
      subst h
      simp [deleteWaterSupplyEntry, he]
    | some fresh =>
      have hnone : lookupById (db.entries.filter (fun p => p.1 != e.1)) e.1 = none :=
        lookupById_filter_self_none db.entries e.1
      cases hp : fresh.isPaid with
      | true =>
        simp [deleteWaterSupplyEntry, he, hp] at h
        subst h
        simp [deleteWaterSupplyEntry, hnone]
      | false =>
        cases hc : lookupById db.customers e.2.customerId with
        | none =>
          simp [deleteWaterSupplyEntry, he, hp, hc] at h
          subst h
          simp [deleteWaterSupplyEntry, hnone]
        | some c =>
          simp [deleteWaterSupplyEntry, he, hp, hc] at h
          subst h
          simp [deleteWaterSupplyEntry, hnone]

/-- Witness for C5: deleting the unpaid 300 entry of the scenario store
removes it and clamps the customer's pending amount down by 300. -/
theorem deleteEntry_idempotent_clamped_witness :
    ∃ db', deleteWaterSupplyEntry c1DB (10, c1Entry300) = .ok db' ∧
      lookupById db'.entries 10 = none ∧
      lookupById db'.customers 1 =
        some { c1Customer with
                 pendingAmount := max 0 (c1Customer.pendingAmount - c1Entry300.amount) } :=
  deleteEntry_idempotent_clamped.2.1 c1DB (10, c1Entry300) c1Entry300 c1Customer
    rfl rfl rfl

/-- The fresh-id counter really is fresh: every stored entry id is below it.
This holds for every store built by the operations of the model (ids are
allocated from the counter) and mirrors Firestore's guarantee that
`doc(collection)` mints an unused document id. -/
def EntryIdsFresh (db : DB) : Prop := ∀ p ∈ db.entries, p.1 < db.nextId

/-- **C3.** Every AddEntry invocation on an existing customer — the only input
path is the add-entry form, which always submits `isPaid: false` — creates the
entry unpaid, adds its amount to that customer's `pendingAmount`, commits the
customer update and the entry insert together, and returns the new entry's
identity; no other entry document is disturbed. -/
theorem addEntry_adds_amount_to_pending :
    ∀ (db : DB) (customerId : Nat) (startDateTime endDateTime : Int)
      (startTime endTime cropType : String) (amount durationHours : ℚ)
      (c : Customer),
      startDateTime < endDateTime →
      lookupById db.customers customerId = some c →
      EntryIdsFresh db →
      ∃ db' newId,
        addWaterSupplyEntry db
          (newEntryFromForm customerId startDateTime endDateTime startTime endTime
            cropType amount durationHours) = .ok (db', newId) ∧
        lookupById db'.customers customerId =
          some { c with pendingAmount := c.pendingAmount + amount } ∧
        lookupById db'.entries newId = some
          { customerId := customerId, customerName := c.name,
            entryTimestamp := startDateTime, endDate := endDateTime,
            startTime := startTime, endTime := endTime,
            durationHours := durationHours, cropType := cropType,
            amount := amount, isPaid := false } ∧
        (∀ i : Nat, i ≠ newId →
          lookupById db'.entries i = lookupById db.entries i) := by
  intro db cid sdt edt st et crop amt dur c hlt hc hfresh
  have hr : ¬ (edt ≤ sdt) := not_le.mpr hlt
  have hadd : addWaterSupplyEntry db
      (newEntryFromForm cid sdt edt st et crop amt dur) = .ok
      ({ customers := setById db.customers cid
           { c with pendingAmount := c.pendingAmount + amt },
         entries := db.entries ++
           [(db.nextId,
             { customerId := cid, customerName := c.name,
               entryTimestamp := sdt, endDate := edt,
               startTime := st, endTime := et,
               durationHours := dur, cropType := crop,
               amount := amt, isPaid := false })],
         nextId := db.nextId + 1 }, db.nextId) := by
    simp [addWaterSupplyEntry, newEntryFromForm, hr, hlt, hc]
  refine ⟨_, _, hadd, ?_, ?_, ?_⟩
  · rw [lookupById_setById_self, hc]
    rfl
  · exact lookupById_append_fresh _ (fun p hp => Nat.ne_of_lt (hfresh p hp))
  · intro i hi
    exact lookupById_append_other db.entries db.nextId i _ hi

/-- Witness for C3: a one-hour Wheat entry of amount 150 added through the
form to the scenario store raises the customer's pending amount by 150, is
stored unpaid under the returned fresh id, and leaves both old entries
alone. -/
theorem addEntry_adds_amount_to_pending_witness :
    ∃ db' newId,
      addWaterSupplyEntry c1DB
        (newEntryFromForm 1 0 3600000 "00:00" "01:00" "Wheat" 150 1) =
        .ok (db', newId) ∧
      lookupById db'.customers 1 =
        some { c1Customer with pendingAmount := c1Customer.pendingAmount + 150 } ∧
      lookupById db'.entries newId = some
        { customerId := 1, customerName := c1Customer.name,
          entryTimestamp := 0, endDate := 3600000,
          startTime := "00:00", endTime := "01:00",
          durationHours := 1, cropType := "Wheat",
          amount := 150, isPaid := false } ∧
      (∀ i : Nat, i ≠ newId →
        lookupById db'.entries i = lookupById c1DB.entries i) :=
  addEntry_adds_amount_to_pending c1DB 1 0 3600000 "00:00" "01:00" "Wheat" 150 1
    c1Customer (by norm_num) rfl
    (by
      intro p hp
      simp only [c1DB, List.mem_cons, List.not_mem_nil, or_false] at hp
      rcases hp with rfl | rfl <;> simp [c1DB])


/-- The non-empty-update guard of `updateWaterSupplyEntry` is passed whenever
the payload carries at least one field. -/
theorem update_guard_false {u : EntryUpdateData}
    (hne : u.amount.isSome ∨ u.isPaid.isSome) :
    (u.amount.isNone && u.isPaid.isNone) = false := by
  obtain ⟨ua, up⟩ := u
  cases ua <;> cases up <;> simp_all

/-- Effect of the staged entry update on a point lookup. -/
theorem lookupById_mapValues {α : Type} (l : List (Nat × α)) (j : Nat) (f : α → α)
    (i : Nat) :
    lookupById (l.map (fun p => if p.1 == j then (p.1, f p.2) else p)) i =
      (lookupById l i).map (fun a => if i == j then f a else a) := by
  induction l with
  | nil => rfl
  | cons p rest ih =>
    obtain ⟨k, v⟩ := p
    show lookupById ((if (k == j) = true then (k, f v) else (k, v)) ::
      rest.map (fun p => if p.1 == j then (p.1, f p.2) else p)) i = _
    by_cases hkj : (k == j) = true
    · rw [if_pos hkj]
      by_cases hki : (k == i) = true
      · have h1 : k = j := by simpa using hkj
        have h2 : k = i := by simpa using hki
        subst h1
        subst h2
        rw [lookupById_cons_self (by simp), lookupById_cons_self (by simp)]
        simp
      · have hki2 : (k == i) = false := by simpa using hki
        rw [lookupById_cons_ne hki2, lookupById_cons_ne hki2, ih]
    · rw [if_neg hkj]
      by_cases hki : (k == i) = true
      · have h2 : k = i := by simpa using hki
        subst h2
        have hij : (k == j) = false := by simpa using hkj
        rw [lookupById_cons_self (by simp), lookupById_cons_self (by simp)]
        simp [hij]
      · have hki2 : (k == i) = false := by simpa using hki
        rw [lookupById_cons_ne hki2, lookupById_cons_ne hki2, ih]

/-- **C10.** `updateWaterSupplyEntry` adjusts the owning customer's
`pendingAmount` by the four-case rule on the old and new (amount, isPaid)
values: zero when paid stays paid; `newAmount − oldAmount` when unpaid stays
unpaid; `+newAmount` when flipping paid → unpaid; `−oldAmount` when flipping
unpaid → paid.  The resulting pending amount is clamped at 0, and when the
adjustment is zero no customer write is staged at all (the returned flag
mirrors whether `transaction.update(customerRef, …)` was staged); in every
case the entry document receives the staged field update. -/
theorem updateEntry_four_case_adjustment :
    (∀ (db : DB) (entryId : Nat) (u : EntryUpdateData) (old : WaterSupplyEntry)
        (c : Customer),
        (u.amount.isSome ∨ u.isPaid.isSome) →
        lookupById db.customers old.customerId = some c →
        old.isPaid = true → u.isPaid.getD old.isPaid = true →
        ∃ db', updateWaterSupplyEntry db entryId u old = .ok (db', false) ∧
          db'.customers = db.customers ∧
          lookupById db'.entries entryId =
            (lookupById db.entries entryId).map (fun e => applyEntryUpdate e u)) ∧
    (∀ (db : DB) (entryId : Nat) (u : EntryUpdateData) (old : WaterSupplyEntry)
        (c : Customer),
        (u.amount.isSome ∨ u.isPaid.isSome) →
        lookupById db.customers old.customerId = some c →
        old.isPaid = false → u.isPaid.getD old.isPaid = false →
        ∃ db' wroteCustomer,
          updateWaterSupplyEntry db entryId u old = .ok (db', wroteCustomer) ∧
          lookupById db'.entries entryId =
            (lookupById db.entries entryId).map (fun e => applyEntryUpdate e u) ∧
          (u.amount.getD old.amount - old.amount = 0 →
            wroteCustomer = false ∧ db'.customers = db.customers) ∧
          (u.amount.getD old.amount - old.amount ≠ 0 →
            wroteCustomer = true ∧
            lookupById db'.customers old.customerId =
              some { c with pendingAmount := max 0 (c.pendingAmount + (u.amount.getD old.amount - old.amount)) })) ∧
    (∀ (db : DB) (entryId : Nat) (u : EntryUpdateData) (old : WaterSupplyEntry)
        (c : Customer),
        (u.amount.isSome ∨ u.isPaid.isSome) →
        lookupById db.customers old.customerId = some c →
        old.isPaid = true → u.isPaid.getD old.isPaid = false →
        ∃ db' wroteCustomer,
          updateWaterSupplyEntry db entryId u old = .ok (db', wroteCustomer) ∧
          lookupById db'.entries entryId =
            (lookupById db.entries entryId).map (fun e => applyEntryUpdate e u) ∧
          (u.amount.getD old.amount = 0 →
            wroteCustomer = false ∧ db'.customers = db.customers) ∧
          (u.amount.getD old.amount ≠ 0 →
            wroteCustomer = true ∧
            lookupById db'.customers old.customerId =
              some { c with pendingAmount := max 0 (c.pendingAmount + u.amount.getD old.amount) })) ∧
    (∀ (db : DB) (entryId : Nat) (u : EntryUpdateData) (old : WaterSupplyEntry)
        (c : Customer),
        (u.amount.isSome ∨ u.isPaid.isSome) →
        lookupById db.customers old.customerId = some c →
        old.isPaid = false → u.isPaid.getD old.isPaid = true →
        ∃ db' wroteCustomer,
          updateWaterSupplyEntry db entryId u old = .ok (db', wroteCustomer) ∧
          lookupById db'.entries entryId =
            (lookupById db.entries entryId).map (fun e => applyEntryUpdate e u) ∧
          (old.amount = 0 →
            wroteCustomer = false ∧ db'.customers = db.customers) ∧
          (old.amount ≠ 0 →
            wroteCustomer = true ∧
            lookupById db'.customers old.customerId =
              some { c with pendingAmount := max 0 (c.pendingAmount + -old.amount) })) := by
  refine ⟨?_, ?_, ?_, ?_⟩
  · intro db entryId u old c hne hc hop hnp
    have hguard := update_guard_false hne
    rw [hop] at hnp
    have hupd : updateWaterSupplyEntry db entryId u old = .ok
        ({ db with
             entries := db.entries.map
               (fun p => if p.1 == entryId then (p.1, applyEntryUpdate p.2 u) else p) },
          false) := by
      simp [updateWaterSupplyEntry, hguard, hc, hop, hnp]
    refine ⟨_, hupd, rfl, ?_⟩
    show lookupById (db.entries.map
      (fun p => if p.1 == entryId then (p.1, applyEntryUpdate p.2 u) else p)) entryId = _
    rw [lookupById_mapValues db.entries entryId (fun e => applyEntryUpdate e u) entryId]
    simp
  · intro db entryId u old c hne hc hop hnp
    have hguard := update_guard_false hne
    rw [hop] at hnp
    by_cases hadj : u.amount.getD old.amount - old.amount = 0
    · have hupd : updateWaterSupplyEntry db entryId u old = .ok
          ({ db with
               entries := db.entries.map
                 (fun p => if p.1 == entryId then (p.1, applyEntryUpdate p.2 u) else p) },
            false) := by
        simp [updateWaterSupplyEntry, hguard, hc, hop, hnp, hadj]
      refine ⟨_, _, hupd, ?_, fun _ => ⟨rfl, rfl⟩, fun hcon => absurd hadj hcon⟩
      show lookupById (db.entries.map
        (fun p => if p.1 == entryId then (p.1, applyEntryUpdate p.2 u) else p)) entryId = _
      rw [lookupById_mapValues db.entries entryId (fun e => applyEntryUpdate e u) entryId]
      simp
    · have hupd : updateWaterSupplyEntry db entryId u old = .ok
          ({ db with
               entries := db.entries.map
                 (fun p => if p.1 == entryId then (p.1, applyEntryUpdate p.2 u) else p),
               customers := setById db.customers old.customerId
                 { c with pendingAmount := max 0 (c.pendingAmount + (u.amount.getD old.amount - old.amount)) } },
            true) := by
        simp [updateWaterSupplyEntry, hguard, hc, hop, hnp, hadj]
      refine ⟨_, _, hupd, ?_, fun hcon => absurd hcon hadj, fun _ => ⟨rfl, ?_⟩⟩
      · show lookupById (db.entries.map
          (fun p => if p.1 == entryId then (p.1, applyEntryUpdate p.2 u) else p)) entryId = _
        rw [lookupById_mapValues db.entries entryId (fun e => applyEntryUpdate e u) entryId]
        simp
      · show lookupById (setById db.customers old.customerId _) old.customerId = _
        rw [lookupById_setById_self, hc]
        rfl
  · intro db entryId u old c hne hc hop hnp
    have hguard := update_guard_false hne
    rw [hop] at hnp
    by_cases hadj : u.amount.getD old.amount = 0
    · have hupd : updateWaterSupplyEntry db entryId u old = .ok
          ({ db with
               entries := db.entries.map
                 (fun p => if p.1 == entryId then (p.1, applyEntryUpdate p.2 u) else p) },
            false) := by
        simp [updateWaterSupplyEntry, hguard, hc, hop, hnp, hadj]
      refine ⟨_, _, hupd, ?_, fun _ => ⟨rfl, rfl⟩, fun hcon => absurd hadj hcon⟩
      show lookupById (db.entries.map
        (fun p => if p.1 == entryId then (p.1, applyEntryUpdate p.2 u) else p)) entryId = _
      rw [lookupById_mapValues db.entries entryId (fun e => applyEntryUpdate e u) entryId]
      simp
    · have hupd : updateWaterSupplyEntry db entryId u old = .ok
          ({ db with
               entries := db.entries.map
                 (fun p => if p.1 == entryId then (p.1, applyEntryUpdate p.2 u) else p),
               customers := setById db.customers old.customerId
                 { c with pendingAmount := max 0 (c.pendingAmount + u.amount.getD old.amount) } },
            true) := by
        simp [updateWaterSupplyEntry, hguard, hc, hop, hnp, hadj]
      refine ⟨_, _, hupd, ?_, fun hcon => absurd hcon hadj, fun _ => ⟨rfl, ?_⟩⟩
      · show lookupById (db.entries.map
          (fun p => if p.1 == entryId then (p.1, applyEntryUpdate p.2 u) else p)) entryId = _
        rw [lookupById_mapValues db.entries entryId (fun e => applyEntryUpdate e u) entryId]
        simp
      · show lookupById (setById db.customers old.customerId _) old.customerId = _
        rw [lookupById_setById_self, hc]
        rfl
  · intro db entryId u old c hne hc hop hnp
    have hguard := update_guard_false hne
    rw [hop] at hnp
    by_cases hadj : old.amount = 0
    · have hupd : updateWaterSupplyEntry db entryId u old = .ok
          ({ db with
               entries := db.entries.map
                 (fun p => if p.1 == entryId then (p.1, applyEntryUpdate p.2 u) else p) },
            false) := by
        simp [updateWaterSupplyEntry, hguard, hc, hop, hnp, neg_eq_zero, hadj]
      refine ⟨_, _, hupd, ?_, fun _ => ⟨rfl, rfl⟩, fun hcon => absurd hadj hcon⟩
      show lookupById (db.entries.map
        (fun p => if p.1 == entryId then (p.1, applyEntryUpdate p.2 u) else p)) entryId = _
      rw [lookupById_mapValues db.entries entryId (fun e => applyEntryUpdate e u) entryId]
      simp
    · have hupd : updateWaterSupplyEntry db entryId u old = .ok
          ({ db with
               entries := db.entries.map
                 (fun p => if p.1 == entryId then (p.1, applyEntryUpdate p.2 u) else p),
               customers := setById db.customers old.customerId
                 { c with pendingAmount := max 0 (c.pendingAmount + -old.amount) } },
            true) := by
        simp [updateWaterSupplyEntry, hguard, hc, hop, hnp, neg_eq_zero, hadj]
      refine ⟨_, _, hupd, ?_, fun hcon => absurd hcon hadj, fun _ => ⟨rfl, ?_⟩⟩
      · show lookupById (db.entries.map
          (fun p => if p.1 == entryId then (p.1, applyEntryUpdate p.2 u) else p)) entryId = _
        rw [lookupById_mapValues db.entries entryId (fun e => applyEntryUpdate e u) entryId]
        simp
      · show lookupById (setById db.customers old.customerId _) old.customerId = _
        rw [lookupById_setById_self, hc]
        rfl


/-- Witness for C10: shrinking the unpaid 300 entry to amount 250 (staying
unpaid) stages a customer write that lowers the pending amount by 50,
clamped at 0. -/
theorem updateEntry_four_case_adjustment_witness :
    ∃ db' wroteCustomer,
      updateWaterSupplyEntry c1DB 10 ⟨some 250, none⟩ c1Entry300 =
        .ok (db', wroteCustomer) ∧
      lookupById db'.entries 10 =
        (lookupById c1DB.entries 10).map
          (fun e => applyEntryUpdate e ⟨some 250, none⟩) ∧
      ((250 : ℚ) - c1Entry300.amount = 0 →
        wroteCustomer = false ∧ db'.customers = c1DB.customers) ∧
      ((250 : ℚ) - c1Entry300.amount ≠ 0 →
        wroteCustomer = true ∧
        lookupById db'.customers 1 =
          some { c1Customer with pendingAmount := max 0 (c1Customer.pendingAmount + ((250 : ℚ) - c1Entry300.amount)) }) :=
  updateEntry_four_case_adjustment.2.1 c1DB 10 ⟨some 250, none⟩ c1Entry300
    c1Customer (Or.inl rfl) rfl rfl rfl

/-- A joined non-empty list of strings starts with its head. -/
theorem joinWith_head (sep h : String) (rows : List String) :
    ∃ rest : String, joinWith sep (h :: rows) = h ++ rest := by
  cases rows with
  | nil => exact ⟨"", (String.append_empty h).symm⟩
  | cons r rs =>
    refine ⟨sep ++ joinWith sep (r :: rs), ?_⟩
    show h ++ sep ++ joinWith sep (r :: rs) = _
    rw [String.append_assoc]

/-- **C9.** `exportEntries` fails with `NoDataToExport` whenever the filtered
result set is empty (no empty file is ever emitted), and for every non-empty
result set it returns a CSV blob that begins with the U+FEFF byte-order mark
followed by the exact header row `Start Date,End Date,Customer,Start Time,End
Time,Duration (hrs),Crop Type,Amount (INR),Status`; the customer-name column
of every data row is double-quoted (with embedded quotes doubled). -/
theorem exportEntries_bom_header_or_error :
    (∀ (fmtDate : Int → String) (sameDay : Int → Int → Bool)
        (fmtFixed2 fmtFixed0 : ℚ → String) (db : DB) (filters : ReportFilters),
        getFilteredEntries db filters = [] →
        exportEntries fmtDate sameDay fmtFixed2 fmtFixed0 db filters =
          .error .noDataToExport) ∧
    (∀ (fmtDate : Int → String) (sameDay : Int → Int → Bool)
        (fmtFixed2 fmtFixed0 : ℚ → String) (db : DB) (filters : ReportFilters),
        getFilteredEntries db filters ≠ [] →
        ∃ rest : String,
          exportEntries fmtDate sameDay fmtFixed2 fmtFixed0 db filters =
            .ok ("\uFEFF" ++
              ("Start Date,End Date,Customer,Start Time,End Time,Duration (hrs),Crop Type,Amount (INR),Status"
                ++ rest))) ∧
    (∀ (fmtDate : Int → String) (sameDay : Int → Int → Bool)
        (fmtFixed2 fmtFixed0 : ℚ → String) (e : WaterSupplyEntry),
        (csvRow fmtDate sameDay fmtFixed2 fmtFixed0 e)[2]? =
          some ("\"" ++
            ((if e.customerName = "" then "N/A" else e.customerName).replace "\"" "\"\"")
            ++ "\"")) := by
  refine ⟨?_, ?_, ?_⟩
  · intro fmtDate sameDay f2 f0 db filters hnil
    simp [exportEntries, hnil]
  · intro fmtDate sameDay f2 f0 db filters hne
    have hlen : ¬ ((getFilteredEntries db filters).length = 0) := by
      simpa using hne
    obtain ⟨rest, hrest⟩ := joinWith_head "\n" (joinWith "," csvHeaders)
      (((getFilteredEntries db filters).map
        (fun p => csvRow fmtDate sameDay f2 f0 p.2)).map (joinWith ","))
    refine ⟨rest, ?_⟩
    simp only [exportEntries, if_neg hlen]
    rw [hrest]
    rfl
  · intro fmtDate sameDay f2 f0 e
    simp [csvRow]

/-- Single entry used by the C9 witness store. -/
def c9Entry : WaterSupplyEntry :=
  { customerId := 1, customerName := "Asha", entryTimestamp := 0,
    endDate := 3600000, startTime := "06:00", endTime := "07:00",
    durationHours := 1, cropType := "Rice", amount := 200, isPaid := false }

/-- Store with exactly one entry, for the C9 witness. -/
def c9DB : DB := { customers := [], entries := [(5, c9Entry)], nextId := 6 }

/-- Witness for C9: the empty store exports as `NoDataToExport`; the one-entry
store exports a blob starting with the byte-order mark and the header row. -/
theorem exportEntries_bom_header_or_error_witness :
    exportEntries (fun _ => "2024-01-01") (fun _ _ => true) (fun _ => "1.00")
      (fun _ => "200") ⟨[], [], 0⟩ ⟨none, none, none⟩ = .error .noDataToExport ∧
    (∃ rest : String,
      exportEntries (fun _ => "2024-01-01") (fun _ _ => true) (fun _ => "1.00")
        (fun _ => "200") c9DB ⟨none, none, none⟩ =
        .ok ("\uFEFF" ++
          ("Start Date,End Date,Customer,Start Time,End Time,Duration (hrs),Crop Type,Amount (INR),Status"
            ++ rest))) :=
  ⟨exportEntries_bom_header_or_error.1 _ _ _ _ ⟨[], [], 0⟩ ⟨none, none, none⟩ rfl,
   exportEntries_bom_header_or_error.2.1 _ _ _ _ c9DB ⟨none, none, none⟩
     (by decide)⟩

/-- Inversion: a committed payment rewrites exactly the paid-to customer,
with the clamped pending amount. -/
theorem recordPayment_ok_customers {db : DB} {cid : Nat} {pa : ℚ} {db' : DB}
    (h : recordPayment db cid pa = .ok db') :
    ∃ c, lookupById db.customers cid = some c ∧
      db'.customers = setById db.customers cid
        { c with totalPaid := c.totalPaid + pa,
                 pendingAmount := max 0 (c.pendingAmount - pa) } := by
  simp only [recordPayment] at h
  split at h
  · cases h
  · split at h
    · cases h
    · rename_i c hc
      simp only [Except.ok.injEq] at h
      subst h
      exact ⟨c, hc, rfl⟩

/-- Inversion: a committed entry insert rewrites exactly the owning customer,
adding the amount to pending when the entry is unpaid. -/
theorem addWaterSupplyEntry_ok_customers {db : DB} {d : NewEntryData}
    {db' : DB} {nid : Nat}
    (h : addWaterSupplyEntry db d = .ok (db', nid)) :
    ∃ c, lookupById db.customers d.customerId = some c ∧
      db'.customers = setById db.customers d.customerId
        { c with pendingAmount :=
            if d.isPaid then c.pendingAmount else c.pendingAmount + d.amount } := by
  simp only [addWaterSupplyEntry] at h
  split at h
  · cases h
  · split at h
    · cases h
    · rename_i c hc
      simp only [Except.ok.injEq, Prod.mk.injEq] at h
      obtain ⟨h1, h2⟩ := h
      subst h1
      exact ⟨c, hc, rfl⟩

/-- Inversion: a committed entry delete either leaves the customers
collection alone or rewrites the owning customer with a clamped pending
amount. -/
theorem deleteWaterSupplyEntry_ok_customers {db : DB}
    {e : Nat × WaterSupplyEntry} {db' : DB}
    (h : deleteWaterSupplyEntry db e = .ok db') :
    db'.customers = db.customers ∨
    ∃ c a, lookupById db.customers e.2.customerId = some c ∧
      db'.customers = setById db.customers e.2.customerId
        { c with pendingAmount := max 0 (c.pendingAmount - a) } := by
  simp only [deleteWaterSupplyEntry] at h
  split at h
  · simp only [Except.ok.injEq] at h
    subst h
    exact Or.inl rfl
  · split at h
    · simp only [Except.ok.injEq] at h
      subst h
      exact Or.inl rfl
    · split at h
      · simp only [Except.ok.injEq] at h
        subst h
        exact Or.inl rfl
      · rename_i c hc
        simp only [Except.ok.injEq] at h
        subst h
        exact Or.inr ⟨c, _, hc, rfl⟩

/-- Inversion: a committed entry update either leaves the customers
collection alone or rewrites the owning customer with a clamped pending
amount. -/
theorem updateWaterSupplyEntry_ok_customers {db : DB} {i : Nat}
    {u : EntryUpdateData} {old : WaterSupplyEntry} {db' : DB} {w : Bool}
    (h : updateWaterSupplyEntry db i u old = .ok (db', w)) :
    db'.customers = db.customers ∨
    ∃ c adj, lookupById db.customers old.customerId = some c ∧
      db'.customers = setById db.customers old.customerId
        { c with pendingAmount := max 0 (c.pendingAmount + adj) } := by
  simp only [updateWaterSupplyEntry] at h
  split at h
  · cases h
  · split at h
    · cases h
    · rename_i c hc
      repeat' split at h
      all_goals
        injection h with h
      all_goals
        injection h with h1 h2
      all_goals
        subst h1
      all_goals
        first
          | exact Or.inl rfl
          | exact Or.inr ⟨c, _, hc, rfl⟩

/-- One committed operation preserves non-negativity of every customer's
pending amount, provided an added entry's amount is non-negative. -/
theorem pendingNonneg_applyOp (db : DB) (op : Op)
    (hdb : PendingNonneg db) (hop : OpAmountNonneg op) :
    PendingNonneg (applyOp db op) := by
  cases op with
  | addEntry d =>
    simp only [applyOp]
    cases hres : addWaterSupplyEntry db d with
    | error _ => exact hdb
    | ok pr =>
      obtain ⟨db', nid⟩ := pr
      show PendingNonneg db'
      obtain ⟨c, hc, hcust⟩ := addWaterSupplyEntry_ok_customers hres
      intro p hp
      rw [hcust] at hp
      rcases of_mem_setById hp with h2 | h2
      · rw [h2]
        have hc0 : 0 ≤ c.pendingAmount := hdb _ (lookupById_mem hc)
        by_cases hip : d.isPaid <;> simp [hip]
        · exact hc0
        · exact add_nonneg hc0 hop
      · exact hdb p h2
  | deleteEntry e =>
    simp only [applyOp]
    cases hres : deleteWaterSupplyEntry db e with
    | error _ => exact hdb
    | ok db' =>
      show PendingNonneg db'
      rcases deleteWaterSupplyEntry_ok_customers hres with hcust | ⟨c, a, hc, hcust⟩
      · intro p hp
        rw [hcust] at hp
        exact hdb p hp
      · intro p hp
        rw [hcust] at hp
        rcases of_mem_setById hp with h2 | h2
        · rw [h2]
          exact le_max_left 0 _
        · exact hdb p h2
  | payment cid pa =>
    simp only [applyOp]
    cases hres : recordPayment db cid pa with
    | error _ => exact hdb
    | ok db' =>
      show PendingNonneg db'
      obtain ⟨c, hc, hcust⟩ := recordPayment_ok_customers hres
      intro p hp
      rw [hcust] at hp
      rcases of_mem_setById hp with h2 | h2
      · rw [h2]
        exact le_max_left 0 _
      · exact hdb p h2
  | updateEntry i u old =>
    simp only [applyOp]
    cases hres : updateWaterSupplyEntry db i u old with
    | error _ => exact hdb
    | ok pr =>
      obtain ⟨db', w⟩ := pr
      show PendingNonneg db'
      rcases updateWaterSupplyEntry_ok_customers hres with hcust | ⟨c, adj, hc, hcust⟩
      · intro p hp
        rw [hcust] at hp
        exact hdb p hp
      · intro p hp
        rw [hcust] at hp
        rcases of_mem_setById hp with h2 | h2
        · rw [h2]
          exact le_max_left 0 _
        · exact hdb p h2


/-- `getCropCharge` always succeeds, returning the configured rate or the
`"Other"` default 130. -/
theorem getCropCharge_getD (cropType : String) :
    getCropCharge cropType = .ok ((cropChargeRates cropType).getD 130) := by
  unfold getCropCharge
  cases h : cropChargeRates cropType with
  | none => simp [h, cropChargeRates]
  | some r => simp [h]

/-- Every configured rate, and the default, is positive. -/
theorem cropChargeRates_getD_pos (cropType : String) :
    0 < (cropChargeRates cropType).getD 130 := by
  unfold cropChargeRates
  split_ifs <;> norm_num

/-- Non-negativity of pending amounts is preserved by every operation
sequence whose add-entry amounts are non-negative. -/
theorem pendingNonneg_runOps (ops : List Op) :
    ∀ db : DB, PendingNonneg db → (∀ op ∈ ops, OpAmountNonneg op) →
      PendingNonneg (runOps db ops) := by
  induction ops with
  | nil => intro db hdb _; exact hdb
  | cons op rest ih =>
    intro db hdb hops
    exact ih (applyOp db op)
      (pendingNonneg_applyOp db op hdb (hops op (by simp)))
      (fun o ho => hops o (by simp [ho]))

/-- **C2.** Starting from any store whose customers all have non-negative
`pendingAmount` (in particular a freshly created customer, whose balances are
0), every sequence of AddEntry / DeleteEntry / RecordPayment / update-entry
operations keeps `pendingAmount ≥ 0` after each committed prefix — including
payments exceeding the current pending amount, which clamp at 0.  The
hypothesis that each AddEntry amount is non-negative is discharged by the
system itself: the second conjunct shows every amount the charge calculator
produces (the only amount source of the add-entry form) is ≥ 0. -/
theorem pendingAmount_nonneg_invariant :
    (∀ (db : DB) (ops : List Op) (n : Nat),
        PendingNonneg db →
        (∀ op ∈ ops, OpAmountNonneg op) →
        PendingNonneg (runOps db (ops.take n))) ∧
    (∀ (startDateTime endDateTime : Int) (cropType : String) (amount : Int),
        calculateCharge startDateTime endDateTime cropType = .ok amount →
        0 ≤ amount) := by
  constructor
  · intro db ops n hdb hops
    exact pendingNonneg_runOps (ops.take n) db hdb
      (fun op hop => hops op (List.take_subset n ops hop))
  · intro s e crop amt h
    simp only [calculateCharge] at h
    split at h
    · cases h
    · split at h
      · cases h
      · rename_i hdpos
        simp only [getCropCharge_getD] at h
        injection h with h
        subst h
        have hd : (0:ℚ) < ((e - s : Int) : ℚ) / 3600000 := not_le.mp hdpos
        have hrate := cropChargeRates_getD_pos crop
        rw [round_eq]
        refine Int.floor_nonneg.mpr ?_
        have := mul_pos hd hrate
        linarith

/-- Witness for C2: a payment of 500 against a fresh customer with pending 0
(payment exceeding pending) keeps the invariant, and the concrete Rice charge
is non-negative. -/
theorem pendingAmount_nonneg_invariant_witness :
    PendingNonneg (runOps ⟨[(1, ⟨"Asha", "9", "V", 0, 0⟩)], [], 2⟩
      ([Op.payment 1 500].take 1)) ∧
    (0:Int) ≤ 500 :=
  ⟨pendingAmount_nonneg_invariant.1 ⟨[(1, ⟨"Asha", "9", "V", 0, 0⟩)], [], 2⟩ [Op.payment 1 500] 1
     (by
       intro p hp
       simp only [List.mem_singleton] at hp
       subst hp
       norm_num)
     (by
       intro op hop
       simp only [List.mem_singleton] at hop
       subst hop
       trivial),
   pendingAmount_nonneg_invariant.2 0 9000000 "Rice" 500
     (by norm_num [calculateCharge, getCropCharge, cropChargeRates, round_eq])⟩


end Studio
